import Mathlib

/-
Shallow embedding of the Ntree byzcoin consensus protocol
(byzcoin_ntree, file `ntree.go` of dedis/paper_18_ieeesnp_omniledger).

The per-node protocol state (`Ntree`) and the handler functions
(`computeBlockSignature`, `handleBlockSignature`, `startSignatureRequest`,
`verifySignatureRequest`, `computeSignatureResponse`,
`handleRoundSignatureResponse`) are translated directly from the Go source.
Go channels used for hand-off of verification results are modelled as FIFO
lists of pending booleans: a receive takes the head, and a receive on an
empty channel blocks forever, modelled as `Option.none` (the invocation
never completes and never mutates the state).  `verifySignatureRequest`,
which only sends on its channel, is modelled as the ordered list of
boolean values it sends.
-/

set_option autoImplicit false

namespace NtreeProto

/-- Modelled from the spec: the external SignaturePrimitive is out of scope
of the source tree (`crypto.SchnorrSig` comes from a vendored library), so
a signature is idealized as the pair of the signing key and the signed
payload: it verifies under exactly that key and payload. -/
structure SchnorrSig where
  signer : Nat
  payload : List Nat
deriving DecidableEq

/-- Modelled from the spec: `sign(privateKey, payload) -> Signature`.
Public and private keys are identified in the idealized scheme. -/
def SignSchnorr (priv : Nat) (payload : List Nat) : SchnorrSig :=
  ⟨priv, payload⟩

/-- Modelled from the spec: `verify(publicKey, payload, sig) -> bool`:
valid iff the signature was produced under the matching key over exactly
that payload. -/
def VerifySchnorr (pub : Nat) (payload : List Nat) (sig : SchnorrSig) : Bool :=
  sig.signer == pub && sig.payload == payload

/-- Modelled from the spec: a block is an opaque payload made of a header
and a body (the transaction list); `blockchain.TrBlock` itself is outside
the provided source tree. Bytes are modelled as `List Nat`. -/
structure TrBlock where
  Header : List Nat
  Body : List Nat
deriving DecidableEq

/-- Modelled from the spec: the round-1 payload, `json.Marshal(nt.block)`,
an encoding of the full block (header and body). -/
def marshalBlock (b : TrBlock) : List Nat :=
  b.Header ++ b.Body

/-- Modelled from the spec: the round-2 payload,
`json.Marshal(nt.block.Header)`, an encoding of the header only. -/
def marshalHeader (b : TrBlock) : List Nat :=
  b.Header

/-- Type `Exception`: a peer refusing to sign; it carries only the peer's tree
node ID (`onet.TreeNodeID` modelled as `Nat`). -/
structure Exception where
  ID : Nat
deriving DecidableEq

/-- Type `NaiveBlockSignature`: the bundle of independent signatures and
exceptions accumulated for one phase. -/
structure NaiveBlockSignature where
  Sigs : List SchnorrSig
  Exceptions : List Exception
deriving DecidableEq

/-- The bundle merge performed by the handlers:
`tempSig.Sigs = append(tempSig.Sigs, msg.Sigs...)` and likewise for the
exceptions. -/
def mergeBundle (a m : NaiveBlockSignature) : NaiveBlockSignature :=
  ⟨a.Sigs ++ m.Sigs, a.Exceptions ++ m.Exceptions⟩

/-- Appending one signature to a bundle (`append(b.Sigs, s)`). -/
def addSigB (a : NaiveBlockSignature) (s : SchnorrSig) : NaiveBlockSignature :=
  ⟨a.Sigs ++ [s], a.Exceptions⟩

/-- Appending one exception to a bundle (`append(b.Exceptions, e)`). -/
def addExcB (a : NaiveBlockSignature) (e : Exception) : NaiveBlockSignature :=
  ⟨a.Sigs, a.Exceptions ++ [e]⟩

/-- Total number of contributions held in a bundle. -/
def sizeBundle (a : NaiveBlockSignature) : Nat :=
  a.Sigs.length + a.Exceptions.length

/-- Per-node protocol state of the `Ntree` struct.  `ownID` is
`nt.TreeNode().ID`, `priv` the node's private key (which, in the idealized
scheme, equals `nt.Public()`), `nTotal` is `len(nt.Tree().List())`,
`nChildren` is `len(nt.Children())`.  The two verification channels hold
the booleans sent but not yet received. -/
structure Ntree where
  ownID : Nat
  priv : Nat
  nTotal : Nat
  nChildren : Nat
  isRoot : Bool
  block : TrBlock
  verifyBlockChan : List Bool
  verifySignatureRequestChan : List Bool
  tempBlockSig : NaiveBlockSignature
  tempBlockSigReceived : Nat
  tempSignatureResponse : NaiveBlockSignature
  tempSignatureResponseReceived : Nat
deriving DecidableEq

/-- Go `int(math.Ceil(float64(n) / 3.0))`: the integer ceiling of n/3
(exact for every tree size representable in a float64). -/
def threshold (n : Nat) : Nat :=
  (n + 2) / 3

/-- The number of signatures of a list that verify under `pub` over
`payload` (the loop counting `goodSig` in `verifySignatureRequest`). -/
def goodSigCount (pub : Nat) (payload : List Nat) (sigs : List SchnorrSig) : Nat :=
  (sigs.filter (fun s => VerifySchnorr pub payload s)).length

/-- Function `verifySignatureRequest`, modelled as the ordered list of booleans the
goroutine sends on `verifySignatureRequestChan`.  The Go code does not
return after a failing check, so a failing check contributes a `false`
and the function still falls through to the final `true` send. The
signatures are all verified under `nt.Public()`, the verifying node's own
key `pub`, over `json.Marshal(nt.block)`. -/
def verifySignatureRequest (nTotal pub : Nat) (block : TrBlock)
    (msg : NaiveBlockSignature) : List Bool :=
  (if threshold nTotal < msg.Exceptions.length then [false] else []) ++
    ((if goodSigCount pub (marshalBlock block) msg.Sigs ≤ 2 * threshold nTotal
      then [false] else []) ++ [true])

/-- Function `computeBlockSignature`: receive the block-verification verdict
(blocking forever, i.e. `none`, if no verdict is pending), then append
either the node's own Schnorr signature over the full-block encoding or
an exception carrying the node's own ID. `json.Marshal` of plain block
data and `SignSchnorr` never fail, so their error paths are vacuous. -/
def computeBlockSignature (st : Ntree) : Option Ntree :=
  match st.verifyBlockChan with
  | [] => none
  | ok :: rest =>
    if ok then
      some { st with verifyBlockChan := rest,
                     tempBlockSig :=
                       addSigB st.tempBlockSig
                         (SignSchnorr st.priv (marshalBlock st.block)) }
    else
      some { st with verifyBlockChan := rest,
                     tempBlockSig := addExcB st.tempBlockSig ⟨st.ownID⟩ }

/-- Function `startSignatureRequest`: the root packages `msg` into a
`RoundSignatureRequest`, spawns `verifySignatureRequest` on it (its
pending sends are queued on the channel) and broadcasts that request to
its children; the second component is the broadcast content. -/
def startSignatureRequest (st : Ntree) (msg : NaiveBlockSignature) :
    Ntree × NaiveBlockSignature :=
  ({ st with verifySignatureRequestChan :=
      st.verifySignatureRequestChan ++
        verifySignatureRequest st.nTotal st.priv st.block msg }, msg)

/-- What a node emits after handling a phase-1 bundle: nothing yet
(children missing), the root's signature-request broadcast, or a bundle
sent up to the parent. -/
inductive Phase1Out where
  | waiting
  | request (m : NaiveBlockSignature)
  | toParent (m : NaiveBlockSignature)
deriving DecidableEq

/-- Function `handleBlockSignature`: merge the child's bundle into `tempBlockSig`,
bump the received counter; once all children reported, compute the own
contribution, then: the root starts the signature request with `msg`
(the bundle of the child handled last), a non-root sends its merged
`tempBlockSig` up. -/
def handleBlockSignature (st : Ntree) (msg : NaiveBlockSignature) :
    Option (Ntree × Phase1Out) :=
  let st1 := { st with tempBlockSig := mergeBundle st.tempBlockSig msg,
                       tempBlockSigReceived := st.tempBlockSigReceived + 1 }
  if st1.tempBlockSigReceived < st1.nChildren then
    some (st1, Phase1Out.waiting)
  else
    match computeBlockSignature st1 with
    | none => none
    | some st2 =>
      if st2.isRoot then
        let p := startSignatureRequest st2 msg
        some (p.1, Phase1Out.request p.2)
      else
        some (st2, Phase1Out.toParent st2.tempBlockSig)

/-- Function `computeSignatureResponse`: receive the bundle-verification verdict
(blocking forever, i.e. `none`, if no verdict is pending), then append
either the node's own Schnorr signature over the header-only encoding or
an exception carrying the node's own ID. -/
def computeSignatureResponse (st : Ntree) : Option Ntree :=
  match st.verifySignatureRequestChan with
  | [] => none
  | ok :: rest =>
    if ok then
      some { st with verifySignatureRequestChan := rest,
                     tempSignatureResponse :=
                       addSigB st.tempSignatureResponse
                         (SignSchnorr st.priv (marshalHeader st.block)) }
    else
      some { st with verifySignatureRequestChan := rest,
                     tempSignatureResponse :=
                       addExcB st.tempSignatureResponse ⟨st.ownID⟩ }

/-- What a node emits after handling a phase-2 bundle: nothing yet, the
root's completion callback value (`NtreeSignature`), or a bundle sent up
to the parent. -/
inductive Phase2Out where
  | waiting
  | done (block : TrBlock) (final : NaiveBlockSignature)
  | toParent (m : NaiveBlockSignature)
deriving DecidableEq

/-- Function `handleRoundSignatureResponse`: merge the child's bundle into
`tempSignatureResponse`, bump the received counter; once all children
reported, compute the own contribution, then: the root invokes the done
callback with its block and merged bundle, a non-root sends `msg` — the
bundle of the child handled last — up to its parent. -/
def handleRoundSignatureResponse (st : Ntree) (msg : NaiveBlockSignature) :
    Option (Ntree × Phase2Out) :=
  let st1 := { st with
    tempSignatureResponse := mergeBundle st.tempSignatureResponse msg,
    tempSignatureResponseReceived := st.tempSignatureResponseReceived + 1 }
  if st1.tempSignatureResponseReceived < st1.nChildren then
    some (st1, Phase2Out.waiting)
  else
    match computeSignatureResponse st1 with
    | none => none
    | some st2 =>
      if st2.isRoot then
        some (st2, Phase2Out.done st2.block st2.tempSignatureResponse)
      else
        some (st2, Phase2Out.toParent msg)

/-! ### A whole-run model over a participant tree

For the run-level claim the protocol is composed over a spanning tree in
which every node executes the handlers above, every message is delivered,
node `i` holds private key `i`, and every block verification succeeds
(`VerifyBlock` is external and is given the verdict `true` everywhere).
Children report in their list order, so the message a node is handling
when its received-counter reaches its child count — the `msg` that
`handleBlockSignature` passes to `startSignatureRequest` and that
`handleRoundSignatureResponse` forwards to the parent — is the bundle of
the last child. -/

mutual
inductive PTree where
  | node (id : Nat) (children : PForest)
inductive PForest where
  | nil
  | cons (t : PTree) (f : PForest)
end

mutual
def countP : PTree → Nat
  | .node _ f => 1 + countF f
def countF : PForest → Nat
  | .nil => 0
  | .cons t f => countP t + countF f
end

mutual
/-- The phase-1 bundle a node sends up (for the root: the bundle it holds
after aggregation): all children's sent bundles merged in order, followed
by the node's own signature over the full-block encoding, exactly as
`handleBlockSignature` accumulates into `tempBlockSig` and then
`computeBlockSignature` appends the own contribution. -/
def p1Sent (b : TrBlock) : PTree → NaiveBlockSignature
  | .node i f => addSigB (p1Forest b f) (SignSchnorr i (marshalBlock b))
def p1Forest (b : TrBlock) : PForest → NaiveBlockSignature
  | .nil => ⟨[], []⟩
  | .cons t f => mergeBundle (p1Sent b t) (p1Forest b f)
end

/-- The phase-1 bundle of the last tree among `t :: f`. -/
def p1SentLast (b : TrBlock) (t : PTree) : PForest → NaiveBlockSignature
  | .nil => p1Sent b t
  | .cons t2 f => p1SentLast b t2 f

/-- The boolean a node's `computeSignatureResponse` actually receives:
the first value `verifySignatureRequest` sends on the channel. -/
def deliveredVerdict (nTotal pub : Nat) (b : TrBlock)
    (req : NaiveBlockSignature) : Bool :=
  (verifySignatureRequest nTotal pub b req).headD false

/-- Node `i`'s own phase-2 contribution appended to `acc`: a signature
over the header-only encoding when the delivered bundle verdict is true,
else an exception carrying `i`. -/
def ownContrib2 (nTotal : Nat) (b : TrBlock) (req : NaiveBlockSignature)
    (i : Nat) (acc : NaiveBlockSignature) : NaiveBlockSignature :=
  if deliveredVerdict nTotal i b req then
    addSigB acc (SignSchnorr i (marshalHeader b))
  else
    addExcB acc ⟨i⟩

mutual
/-- The phase-2 bundle a non-root node sends up.  A leaf sends its
`tempSignatureResponse`, holding only its own contribution; an internal
node — per `handleRoundSignatureResponse`, which sends `msg` instead of
its merged `tempSignatureResponse` — forwards the bundle of its last
child. -/
def p2Sent (nTotal : Nat) (b : TrBlock) (req : NaiveBlockSignature) :
    PTree → NaiveBlockSignature
  | .node i .nil => ownContrib2 nTotal b req i ⟨[], []⟩
  | .node _ (.cons t f) => p2SentLast nTotal b req t f
termination_by t => sizeOf t
def p2SentLast (nTotal : Nat) (b : TrBlock) (req : NaiveBlockSignature)
    (t : PTree) : PForest → NaiveBlockSignature
  | .nil => p2Sent nTotal b req t
  | .cons t2 f => p2SentLast nTotal b req t2 f
termination_by f => sizeOf t + sizeOf f
end

/-- Merge, in order, of the phase-2 bundles sent by a forest of children. -/
def p2Forest (nTotal : Nat) (b : TrBlock) (req : NaiveBlockSignature) :
    PForest → NaiveBlockSignature
  | .nil => ⟨[], []⟩
  | .cons t f => mergeBundle (p2Sent nTotal b req t)
      (p2Forest nTotal b req f)

/-- The phase-2 bundle the root holds at the end of the run, i.e. the
`tempSignatureResponse` it hands to the done callback: its children's
sent bundles merged in order plus its own contribution.  The signature
request broadcast by the root is, per `handleBlockSignature`, the phase-1
bundle of its last child (`none` for a childless root, which never
reaches phase 2). -/
def rootFinalBundle (b : TrBlock) : PTree → Option NaiveBlockSignature
  | .node _ .nil => none
  | .node i (.cons t f) =>
    let nTotal := countP (.node i (.cons t f))
    let req := p1SentLast b t f
    some (ownContrib2 nTotal b req i (p2Forest nTotal b req (.cons t f)))

/-! ### Concrete inputs used by the evaluation theorems -/

/-- A concrete block whose header encoding differs from its full-block
encoding. -/
def bC : TrBlock :=
  ⟨[3], [4]⟩

/-- A three-participant chain: root 0 — internal 1 — leaf 2. -/
def chain3 : PTree :=
  PTree.node 0 (PForest.cons
    (PTree.node 1 (PForest.cons (PTree.node 2 PForest.nil) PForest.nil))
    PForest.nil)

/-- A non-root internal node (ID 1) with one child, all children already
counted except the incoming one, with a pending `true` bundle verdict. -/
def stMid : Ntree :=
  { ownID := 1, priv := 1, nTotal := 3, nChildren := 1, isRoot := false,
    block := bC, verifyBlockChan := [], verifySignatureRequestChan := [true],
    tempBlockSig := ⟨[], []⟩, tempBlockSigReceived := 0,
    tempSignatureResponse := ⟨[], []⟩, tempSignatureResponseReceived := 0 }

/-- The phase-2 bundle stMid's leaf child sends up: the leaf's own
header signature. -/
def msgLeaf : NaiveBlockSignature :=
  ⟨[SignSchnorr 2 (marshalHeader bC)], []⟩

/-- A root (ID 0) of a two-participant tree with one child, with a
pending `true` block verdict, about to handle its child's phase-1
bundle. -/
def stRoot : Ntree :=
  { ownID := 0, priv := 0, nTotal := 2, nChildren := 1, isRoot := true,
    block := bC, verifyBlockChan := [true], verifySignatureRequestChan := [],
    tempBlockSig := ⟨[], []⟩, tempBlockSigReceived := 0,
    tempSignatureResponse := ⟨[], []⟩, tempSignatureResponseReceived := 0 }

/-- The phase-1 bundle stRoot's child sends up: the child's own
full-block signature. -/
def msgChild : NaiveBlockSignature :=
  ⟨[SignSchnorr 1 (marshalBlock bC)], []⟩

/-- A node (ID 1) of a three-participant tree whose bundle verification
has run on an empty signature request: its result channel holds every
boolean `verifySignatureRequest` sends for that request. -/
def stTwice : Ntree :=
  { ownID := 1, priv := 1, nTotal := 3, nChildren := 0, isRoot := false,
    block := bC, verifyBlockChan := [],
    verifySignatureRequestChan := verifySignatureRequest 3 1 bC ⟨[], []⟩,
    tempBlockSig := ⟨[], []⟩, tempBlockSigReceived := 0,
    tempSignatureResponse := ⟨[], []⟩, tempSignatureResponseReceived := 0 }

/-- A node with both verification verdicts pending and `true`, used to
witness the two contribution steps. -/
def stBoth : Ntree :=
  { ownID := 5, priv := 5, nTotal := 1, nChildren := 0, isRoot := true,
    block := bC, verifyBlockChan := [true],
    verifySignatureRequestChan := [true],
    tempBlockSig := ⟨[], []⟩, tempBlockSigReceived := 0,
    tempSignatureResponse := ⟨[], []⟩, tempSignatureResponseReceived := 0 }

/-! ### Theorems -/

/-- Claim C1: for a tree of `nTotal` participants, the bundle verification
computes the threshold `f` as the integer ceiling of `nTotal / 3` (the
value `t` with `nTotal ≤ 3 t < nTotal + 3`), and the verdict it delivers —
the first boolean sent on the result channel — is `true` exactly when the
bundle's exception count is at most `f` and the number of signatures that
verify against the agreed payload is strictly greater than `2 * f`; the
first failing check determines that delivered boolean. -/
theorem verifySignatureRequest_threshold_policy (nTotal pub : Nat)
    (b : TrBlock) (msg : NaiveBlockSignature) :
    ((verifySignatureRequest nTotal pub b msg).head? = some true ↔
      (msg.Exceptions.length ≤ threshold nTotal ∧
        2 * threshold nTotal < goodSigCount pub (marshalBlock b) msg.Sigs)) ∧
    nTotal ≤ 3 * threshold nTotal ∧ 3 * threshold nTotal < nTotal + 3 := by
  refine ⟨?_, by unfold threshold; omega, by unfold threshold; omega⟩
  by_cases h1 : threshold nTotal < msg.Exceptions.length
  · simp [verifySignatureRequest, h1]
  · by_cases h2 :
      goodSigCount pub (marshalBlock b) msg.Sigs ≤ 2 * threshold nTotal
    · simp [verifySignatureRequest, h1, h2]
    · simp [verifySignatureRequest, h1, h2]
      omega

/-- Claim C2: contrary to the claim that a verification task delivers
exactly one boolean per invocation, `verifySignatureRequest`, run in a
3-participant tree on a request carrying no signatures and no exceptions,
executes two channel sends — `false` (the signature-count check fails and
the function does not return) and then `true`. -/
theorem verifySignatureRequest_double_send :
    verifySignatureRequest 3 1 bC ⟨[], []⟩ = [false, true] ∧
    (verifySignatureRequest 3 1 bC ⟨[], []⟩).length = 2 := by
  exact ⟨rfl, rfl⟩

/-- Claim C3: contrary to the claim that a non-root node forwards its
merged phase-2 bundle, the internal node `stMid`, on receiving the last
pending child bundle `msgLeaf`, merges it (its held bundle then has 2
contributions) but sends the single child's bundle `msgLeaf` (1
contribution) to its parent. -/
theorem handleRoundSignatureResponse_forwards_child_bundle :
    (handleRoundSignatureResponse stMid msgLeaf).map (fun p => p.2)
      = some (Phase2Out.toParent msgLeaf) ∧
    (handleRoundSignatureResponse stMid msgLeaf).map
        (fun p => sizeBundle p.1.tempSignatureResponse) = some 2 ∧
    sizeBundle msgLeaf = 1 ∧
    (handleRoundSignatureResponse stMid msgLeaf).map
        (fun p => p.1.tempSignatureResponse == msgLeaf) = some false := by
  exact ⟨rfl, rfl, rfl, rfl⟩

/-- Claim C4: contrary to the claim that the root broadcasts its full
merged phase-1 bundle, the root `stRoot`, on receiving the last pending
child bundle `msgChild`, merges it and adds its own contribution (its
held bundle then has 2 contributions) but packages the single child's
bundle `msgChild` (1 contribution) as the signature request it
broadcasts. -/
theorem handleBlockSignature_root_broadcasts_child_bundle :
    (handleBlockSignature stRoot msgChild).map (fun p => p.2)
      = some (Phase1Out.request msgChild) ∧
    (handleBlockSignature stRoot msgChild).map
        (fun p => sizeBundle p.1.tempBlockSig) = some 2 ∧
    sizeBundle msgChild = 1 ∧
    (handleBlockSignature stRoot msgChild).map
        (fun p => p.1.tempBlockSig == msgChild) = some false := by
  exact ⟨rfl, rfl, rfl, rfl⟩

/-- Claim C5: contrary to the claim that in a full run the root ends each
phase holding one contribution per participant, in the 3-participant
chain `chain3` the root's phase-1 bundle does hold 3 contributions but
its final phase-2 bundle holds only 2: the internal node forwarded its
child's bundle instead of its merged one, losing its own contribution. -/
theorem chain3_root_bundle_counts :
    countP chain3 = 3 ∧
    sizeBundle (p1Sent bC chain3) = 3 ∧
    (rootFinalBundle bC chain3).map sizeBundle = some 2 := by
  refine ⟨rfl, rfl, ?_⟩
  simp [rootFinalBundle, chain3, p2Forest, p2Sent, p2SentLast, ownContrib2,
    deliveredVerdict, verifySignatureRequest, goodSigCount, threshold,
    p1SentLast, p1Sent, p1Forest, mergeBundle, addSigB, addExcB, sizeBundle,
    VerifySchnorr, SignSchnorr, marshalBlock, marshalHeader, bC, countP,
    countF]

/-- Claim C6: contrary to the claim that invoking a node's own
phase-contribution step twice never duplicates that node's contribution,
the node `stTwice` — whose bundle verification failed a check, leaving
the booleans `false` and `true` queued on its result channel — appends
an exception for itself on the first invocation of
`computeSignatureResponse` and a signature on the second, so its own
contribution appears twice in the bundle. -/
theorem computeSignatureResponse_twice_duplicates :
    (computeSignatureResponse stTwice).map (fun s => s.tempSignatureResponse)
      = some ⟨[], [⟨1⟩]⟩ ∧
    ((computeSignatureResponse stTwice).bind computeSignatureResponse).map
        (fun s => s.tempSignatureResponse)
      = some ⟨[SignSchnorr 1 (marshalHeader bC)], [⟨1⟩]⟩ := by
  exact ⟨rfl, rfl⟩

/-- Claim C7: when the header-only encoding of the block differs from its
full-block encoding, the signature the phase-1 step appends is over the
full-block encoding, the signature the phase-2 step appends is over the
header-only encoding, and the two signatures are never equal. -/
theorem phase_payload_domain_separation (st : Ntree) (r1 r2 : List Bool)
    (h1 : st.verifyBlockChan = true :: r1)
    (h2 : st.verifySignatureRequestChan = true :: r2)
    (hne : marshalHeader st.block ≠ marshalBlock st.block) :
    ∃ s1 s2, computeBlockSignature st = some s1 ∧
      computeSignatureResponse st = some s2 ∧
      s1.tempBlockSig.Sigs = st.tempBlockSig.Sigs ++
        [SignSchnorr st.priv (marshalBlock st.block)] ∧
      s2.tempSignatureResponse.Sigs = st.tempSignatureResponse.Sigs ++
        [SignSchnorr st.priv (marshalHeader st.block)] ∧
      SignSchnorr st.priv (marshalBlock st.block) ≠
        SignSchnorr st.priv (marshalHeader st.block) := by
  have e1 : computeBlockSignature st = some { st with
      verifyBlockChan := r1,
      tempBlockSig :=
        addSigB st.tempBlockSig (SignSchnorr st.priv (marshalBlock st.block)) } := by
    unfold computeBlockSignature
    rw [h1]
    rfl
  have e2 : computeSignatureResponse st = some { st with
      verifySignatureRequestChan := r2,
      tempSignatureResponse := addSigB st.tempSignatureResponse
        (SignSchnorr st.priv (marshalHeader st.block)) } := by
    unfold computeSignatureResponse
    rw [h2]
    rfl
  refine ⟨_, _, e1, e2, by simp [addSigB], by simp [addSigB], ?_⟩
  intro h
  exact hne (congrArg SchnorrSig.payload h).symm

/-- Witness for claim C7 at the concrete node `stBoth`, whose block `bC`
has a header encoding different from its full-block encoding. -/
theorem phase_payload_domain_separation_witness :
    ∃ s1 s2, computeBlockSignature stBoth = some s1 ∧
      computeSignatureResponse stBoth = some s2 ∧
      s1.tempBlockSig.Sigs = stBoth.tempBlockSig.Sigs ++
        [SignSchnorr stBoth.priv (marshalBlock stBoth.block)] ∧
      s2.tempSignatureResponse.Sigs = stBoth.tempSignatureResponse.Sigs ++
        [SignSchnorr stBoth.priv (marshalHeader stBoth.block)] ∧
      SignSchnorr stBoth.priv (marshalBlock stBoth.block) ≠
        SignSchnorr stBoth.priv (marshalHeader stBoth.block) :=
  phase_payload_domain_separation stBoth [] [] rfl rfl (by decide)

/-- Claim C8: whenever a verification verdict is pending, the
corresponding phase-contribution step completes and appends exactly one
item for the node — its own signature when the verdict is `true`, an
exception carrying its own ID when it is `false` — so a failed
verification never prevents the contribution from being added. -/
theorem contribution_steps_append_exactly_one (st : Ntree) (ok1 ok2 : Bool)
    (r1 r2 : List Bool) (h1 : st.verifyBlockChan = ok1 :: r1)
    (h2 : st.verifySignatureRequestChan = ok2 :: r2) :
    ∃ s1 s2, computeBlockSignature st = some s1 ∧
      computeSignatureResponse st = some s2 ∧
      s1.tempBlockSig = (if ok1 then
          addSigB st.tempBlockSig (SignSchnorr st.priv (marshalBlock st.block))
        else addExcB st.tempBlockSig ⟨st.ownID⟩) ∧
      s2.tempSignatureResponse = (if ok2 then
          addSigB st.tempSignatureResponse
            (SignSchnorr st.priv (marshalHeader st.block))
        else addExcB st.tempSignatureResponse ⟨st.ownID⟩) ∧
      sizeBundle s1.tempBlockSig = sizeBundle st.tempBlockSig + 1 ∧
      sizeBundle s2.tempSignatureResponse
        = sizeBundle st.tempSignatureResponse + 1 := by
  have e1 : computeBlockSignature st = some { st with
      verifyBlockChan := r1,
      tempBlockSig := (if ok1 then
          addSigB st.tempBlockSig (SignSchnorr st.priv (marshalBlock st.block))
        else addExcB st.tempBlockSig ⟨st.ownID⟩) } := by
    unfold computeBlockSignature
    rw [h1]
    cases ok1 <;> rfl
  have e2 : computeSignatureResponse st = some { st with
      verifySignatureRequestChan := r2,
      tempSignatureResponse := (if ok2 then
          addSigB st.tempSignatureResponse
            (SignSchnorr st.priv (marshalHeader st.block))
        else addExcB st.tempSignatureResponse ⟨st.ownID⟩) } := by
    unfold computeSignatureResponse
    rw [h2]
    cases ok2 <;> rfl
  refine ⟨_, _, e1, e2, by simp, by simp, ?_, ?_⟩
  · cases ok1 <;> simp [addSigB, addExcB, sizeBundle] <;> omega
  · cases ok2 <;> simp [addSigB, addExcB, sizeBundle] <;> omega

/-- Witness for claim C8 at the concrete node `stBoth`, both verdicts
pending and `true`. -/
theorem contribution_steps_append_exactly_one_witness :
    ∃ s1 s2, computeBlockSignature stBoth = some s1 ∧
      computeSignatureResponse stBoth = some s2 ∧
      s1.tempBlockSig = (if true then
          addSigB stBoth.tempBlockSig
            (SignSchnorr stBoth.priv (marshalBlock stBoth.block))
        else addExcB stBoth.tempBlockSig ⟨stBoth.ownID⟩) ∧
      s2.tempSignatureResponse = (if true then
          addSigB stBoth.tempSignatureResponse
            (SignSchnorr stBoth.priv (marshalHeader stBoth.block))
        else addExcB stBoth.tempSignatureResponse ⟨stBoth.ownID⟩) ∧
      sizeBundle s1.tempBlockSig = sizeBundle stBoth.tempBlockSig + 1 ∧
      sizeBundle s2.tempSignatureResponse
        = sizeBundle stBoth.tempSignatureResponse + 1 :=
  contribution_steps_append_exactly_one stBoth true true [] [] rfl rfl

/-- Claim C9: the bundle merge is associative on the nose and commutative
in content: merging in either order yields the same multiset of
signatures and the same multiset of exceptions (only list order may
differ). -/
theorem mergeBundle_assoc_comm_content (a m c : NaiveBlockSignature) :
    mergeBundle (mergeBundle a m) c = mergeBundle a (mergeBundle m c) ∧
    List.Perm (mergeBundle a m).Sigs (mergeBundle m a).Sigs ∧
    List.Perm (mergeBundle a m).Exceptions (mergeBundle m a).Exceptions := by
  refine ⟨?_, ?_, ?_⟩
  · simp [mergeBundle]
  · exact List.perm_append_comm
  · exact List.perm_append_comm

/-- Claim C10: the bundle verification counts a signature as good only if
it verifies under the verifying node's own public key: a signature
validly produced under a different participant's key neither raises
`goodSigCount` nor changes the outcome of `verifySignatureRequest`,
whereas the node's own signature over the agreed payload counts. -/
theorem signatures_verified_under_own_key (nTotal ownPub otherKey : Nat)
    (b : TrBlock) (sigs : List SchnorrSig) (excs : List Exception)
    (h : otherKey ≠ ownPub) :
    goodSigCount ownPub (marshalBlock b)
        (sigs ++ [SignSchnorr otherKey (marshalBlock b)])
      = goodSigCount ownPub (marshalBlock b) sigs ∧
    verifySignatureRequest nTotal ownPub b
        ⟨sigs ++ [SignSchnorr otherKey (marshalBlock b)], excs⟩
      = verifySignatureRequest nTotal ownPub b ⟨sigs, excs⟩ ∧
    goodSigCount ownPub (marshalBlock b)
        [SignSchnorr ownPub (marshalBlock b)] = 1 := by
  have hfalse : VerifySchnorr ownPub (marshalBlock b)
      (SignSchnorr otherKey (marshalBlock b)) = false := by
    simp [VerifySchnorr, SignSchnorr, h]
  have hg : goodSigCount ownPub (marshalBlock b)
      (sigs ++ [SignSchnorr otherKey (marshalBlock b)])
      = goodSigCount ownPub (marshalBlock b) sigs := by
    simp [goodSigCount, List.filter_append, hfalse]
  refine ⟨hg, ?_, ?_⟩
  · simp only [verifySignatureRequest, hg]
  · simp [goodSigCount, VerifySchnorr, SignSchnorr]

/-- Witness for claim C10 with a foreign key 2 distinct from the node's
own key 1. -/
theorem signatures_verified_under_own_key_witness :
    goodSigCount 1 (marshalBlock bC)
        ([] ++ [SignSchnorr 2 (marshalBlock bC)])
      = goodSigCount 1 (marshalBlock bC) [] ∧
    verifySignatureRequest 3 1 bC
        ⟨[] ++ [SignSchnorr 2 (marshalBlock bC)], []⟩
      = verifySignatureRequest 3 1 bC ⟨[], []⟩ ∧
    goodSigCount 1 (marshalBlock bC) [SignSchnorr 1 (marshalBlock bC)] = 1 :=
  signatures_verified_under_own_key 3 1 2 bC [] [] (by decide)

end NtreeProto
